import Mathlib

/-
Verification of the idempo-go idempotency core: a shallow embedding of the
Record data model, the Manager (store adapter), the memdb Unit of Work, and
the Wrapper.Wrap orchestration, together with theorems about the idempotency
protocol they implement.

Modelling conventions:
  * Go `error` interface values are an inductive `GoErr`; the `nil` error is
    `Option.none`.  Sentinel comparison `err == ErrIdempotencyRecordNotFound`
    in Go compares interface values, so a wrapped error is a different value:
    this is `GoErr.wrapped cause`, distinct from `GoErr.recordNotFound` by
    constructor.
  * Go byte slices are `List Nat`.
  * A fallible Go call returning `(T, error)` is a Lean pair
    `T × Option GoErr` (the T component is the value Go assigns even when the
    error is non-nil, as manager.AlreadyProcessed does on unmarshal failure).
  * The transactional store handed out by the repository bundle is a pair of
    state-passing operations over an abstract transaction state `σ`.
  * Ghost fields `actionCalls` / `saveCalls` count how many times the
    protected Action and store.Save were invoked during an execution; they
    are bookkeeping added by the translation, not program state, and in
    particular survive a rollback (a rollback undoes state, not the fact
    that a call happened).
-/

set_option linter.unusedVariables false
set_option linter.unnecessarySeqFocus false

namespace Idempo

/-- Go error values of the idempotency core (errs.go), plus constructors for
errors produced by collaborators (`other`) and for an error that merely wraps
another one via fmt.Errorf with %w (`wrapped`). -/
inductive GoErr where
  | recordNotFound : GoErr
  | hashMismatch : GoErr
  | successOutputMarshal (cause : GoErr) : GoErr
  | failureOutputMarshal (cause : GoErr) : GoErr
  | successOutputUnmarshal (cause : GoErr) : GoErr
  | failureOutputUnmarshal (cause : GoErr) : GoErr
  | successOutputStore (storeErr : GoErr) : GoErr
  | failureOutputStore (storeErr : GoErr) (originalExecErr : GoErr) : GoErr
  | hashCalcError (cause : GoErr) : GoErr
  | wrapped (cause : GoErr) : GoErr
  | other (msg : String) : GoErr
  deriving DecidableEq, Repr

/-- Record holds the Action output (record.go). -/
structure Record where
  ID : String
  InputHash : String
  SuccessOutput : Bool
  Output : List Nat
  deriving DecidableEq, Repr

/-- The zero value of the Go struct Record. -/
def Record.zero : Record :=
  { ID := "", InputHash := "", SuccessOutput := false, Output := [] }

/-- Serializer converts a value to and from bytes; both directions return the
Go pair (value, error). -/
structure Serializer (T : Type) where
  marshal : T → List Nat × Option GoErr
  unmarshal : List Nat → T × Option GoErr

/-- Store is the idempotency record store scoped to one transaction state σ
(store.go): Get returns (Record, error), Save returns the updated
transaction state and an error. -/
structure Store (σ : Type) where
  get : σ → String → Record × Option GoErr
  save : σ → Record → σ × Option GoErr

/-- Manager (the store adapter of manager.go): serializers for the success
and failure outputs and the function reconstructing an error from a stored
failure output.  `failToError` returns a Go error, which may be nil. -/
structure Manager (S F : Type) where
  successSer : Serializer S
  failSer : Serializer F
  failToError : F → Option GoErr

/-- manager.AlreadyProcessed (manager.go lines 58-89): looks the key up in
the store, treats the exact not-found sentinel as a miss, rejects a hash
mismatch, and otherwise reconstructs the stored outcome.  `zeroS` is the Go
zero value of S carried by the named result. -/
def Manager.AlreadyProcessed {σ S F : Type} (m : Manager S F) (zeroS : S)
    (store : Store σ) (st : σ) (idempotencyKey inputHash : String) :
    Bool × S × Option GoErr :=
  match store.get st idempotencyKey with
  | (record, gerr) =>
    match gerr with
    | some e =>
      if e = GoErr.recordNotFound then (false, zeroS, none)
      else (false, zeroS, some e)
    | none =>
      if record.InputHash ≠ inputHash then
        (false, zeroS, some GoErr.hashMismatch)
      else if record.SuccessOutput then
        match m.successSer.unmarshal record.Output with
        | (s, some e) => (true, s, some (GoErr.successOutputUnmarshal e))
        | (s, none) => (true, s, none)
      else
        match m.failSer.unmarshal record.Output with
        | (_, some e) => (true, zeroS, some (GoErr.failureOutputUnmarshal e))
        | (f, none) => (true, zeroS, m.failToError f)

/-- manager.SaveSuccessOutput (manager.go lines 91-109): marshal the success
output (a marshal failure writes nothing) and save a SuccessOutput=true
record. -/
def Manager.SaveSuccessOutput {σ S F : Type} (m : Manager S F)
    (store : Store σ) (st : σ) (idempotencyKey inputHash : String)
    (successOutput : S) : σ × Option GoErr :=
  match m.successSer.marshal successOutput with
  | (_, some e) => (st, some (GoErr.successOutputMarshal e))
  | (output, none) =>
    store.save st
      { ID := idempotencyKey, InputHash := inputHash,
        SuccessOutput := true, Output := output }

/-- manager.SaveFailOutput (manager.go lines 110-128): marshal the failure
output (a marshal failure writes nothing) and save a SuccessOutput=false
record. -/
def Manager.SaveFailOutput {σ S F : Type} (m : Manager S F)
    (store : Store σ) (st : σ) (idempotencyKey inputHash : String)
    (failOutput : F) : σ × Option GoErr :=
  match m.failSer.marshal failOutput with
  | (_, some e) => (st, some (GoErr.failureOutputMarshal e))
  | (output, none) =>
    store.save st
      { ID := idempotencyKey, InputHash := inputHash,
        SuccessOutput := false, Output := output }

/-- The memdb UnitOfWork.Execute (uow/memdb/uow.go lines 29-38, identical to
MemDBUnitOfWork.Execute in memdb_uow.go): begin a transaction on state `st`,
apply `fn` exactly once, commit to `fn`'s state when it returns nil, and on a
non-nil error abort, keeping `st`, and return the error unchanged. -/
def UnitOfWork.Execute {σ : Type} (st : σ) (fn : σ → σ × Option GoErr) :
    σ × Option GoErr :=
  match fn st with
  | (st2, none) => (st2, none)
  | (_, some e) => (st, some e)

/-- An Action (the protected operation): receives the transaction-scoped
state (the repository bundle), the idempotency key and the input, and
returns the updated state, a success output, and an error. -/
def Action (σ I S : Type) : Type :=
  σ → String → I → σ × S × Option GoErr

/-- Wrapper (unnamed/part_001): the unit of work is fixed to
UnitOfWork.Execute over σ; `store` is the transaction-scoped store the
repository bundle exposes; `manager` is the store adapter; `errorToFail`
classifies an action error as a storable business failure; `hasher` is the
input's Hash method; `zeroS` is the Go zero value of S. -/
structure Wrapper (σ I S F : Type) where
  store : Store σ
  manager : Manager S F
  errorToFail : GoErr → Bool × F
  hasher : I → String × Option GoErr
  zeroS : S

/-- Result of the transaction closure of Wrapper.Wrap: the transaction state
it produced, the values it assigned to the captured `successOutput` and
`err` variables of Wrap, the error `fnErr` it returned to the Unit of Work,
and the ghost call counters. -/
structure TxOut (σ S : Type) where
  state : σ
  successOutput : S
  errVar : Option GoErr
  fnErr : Option GoErr
  actionCalls : Nat
  saveCalls : Nat
  deriving Repr

/-- The transaction closure of Wrapper.Wrap (unnamed/part_001 lines 60-91):
idempotency check, then on a miss run the action; record a classified
business failure (clearing fnErr so the commit keeps the record, while the
captured err carries the original action error), propagate a non-business
error raw, and on action success save the success record. -/
def Wrapper.WrapTx {σ I S F : Type} (w : Wrapper σ I S F) (st : σ)
    (idempotencyKey hash : String) (input : I) (action : Action σ I S) :
    TxOut σ S :=
  match w.manager.AlreadyProcessed w.zeroS w.store st idempotencyKey hash with
  | (ok, s0, e0) =>
    if ok || e0.isSome then
      { state := st, successOutput := s0, errVar := none, fnErr := e0,
        actionCalls := 0, saveCalls := 0 }
    else
      match action st idempotencyKey input with
      | (st1, s1, some ae) =>
        match w.errorToFail ae with
        | (isBusinessError, failOutput) =>
          if isBusinessError then
            match
              w.manager.SaveFailOutput w.store st1 idempotencyKey hash
                failOutput with
            | (st2, some se) =>
              { state := st2, successOutput := s1, errVar := none,
                fnErr := some (GoErr.failureOutputStore se ae),
                actionCalls := 1, saveCalls := 1 }
            | (st2, none) =>
              { state := st2, successOutput := s1, errVar := some ae,
                fnErr := none, actionCalls := 1, saveCalls := 1 }
          else
            { state := st1, successOutput := s1, errVar := none,
              fnErr := some ae, actionCalls := 1, saveCalls := 0 }
      | (st1, s1, none) =>
        match
          w.manager.SaveSuccessOutput w.store st1 idempotencyKey hash s1 with
        | (st2, some se) =>
          { state := st2, successOutput := s1, errVar := none,
            fnErr := some (GoErr.successOutputStore se),
            actionCalls := 1, saveCalls := 1 }
        | (st2, none) =>
          { state := st2, successOutput := s1, errVar := none,
            fnErr := none, actionCalls := 1, saveCalls := 1 }

/-- Result of Wrapper.Wrap: the state after the Unit of Work (committed or
rolled back), the returned success output, the returned error, and the ghost
call counters. -/
structure WrapResult (σ S : Type) where
  state : σ
  successOutput : S
  err : Option GoErr
  actionCalls : Nat
  saveCalls : Nat
  deriving Repr

/-- Wrapper.Wrap (unnamed/part_001 lines 51-97): hash the input (a hashing
failure is wrapped and returned before any transaction), run the transaction
closure under the Unit of Work, and reconcile the final error: the Unit of
Work's error when non-nil, otherwise whatever the closure assigned to the
captured err variable.  The captured successOutput and ghost counters come
from the single application of the closure at `st`. -/
def Wrapper.Wrap {σ I S F : Type} (w : Wrapper σ I S F) (st : σ)
    (idempotencyKey : String) (input : I) (action : Action σ I S) :
    WrapResult σ S :=
  match w.hasher input with
  | (_, some e) =>
    { state := st, successOutput := w.zeroS,
      err := some (GoErr.hashCalcError e), actionCalls := 0, saveCalls := 0 }
  | (hash, none) =>
    let t := w.WrapTx st idempotencyKey hash input action
    match
      UnitOfWork.Execute st (fun s =>
        ((w.WrapTx s idempotencyKey hash input action).state,
         (w.WrapTx s idempotencyKey hash input action).fnErr)) with
    | (st2, execErr) =>
      { state := st2, successOutput := t.successOutput,
        err := if execErr.isSome then execErr else t.errVar,
        actionCalls := t.actionCalls, saveCalls := t.saveCalls }

/-- Association-list lookup for the memdb idempotency table, keyed by the
record ID (the "id" index of go-memdb). -/
def lookupRec : List (String × Record) → String → Option Record
  | [], _ => none
  | (k, r) :: rest, key => if k = key then some r else lookupRec rest key

/-- go-memdb Insert on the "id" index: replace the entry with the same ID if
one exists, otherwise append the new entry. -/
def insertRec : List (String × Record) → Record → List (String × Record)
  | [], r => [(r.ID, r)]
  | (k, v) :: rest, r =>
    if k = r.ID then (k, r) :: rest else (k, v) :: insertRec rest r

/-- Transaction state of the memdb-backed system: the idempotency_records
table plus the application tables (of type α) the action works on. -/
structure MemState (α : Type) where
  recs : List (String × Record)
  app : α
  deriving Repr, DecidableEq

/-- The memdb IdempotentStore (uow/memdb/idempotent_store.go): Get returns
the record for the key or the exact ErrIdempotencyRecordNotFound sentinel,
and Save inserts (go-memdb Insert, an upsert by ID); neither operation fails
on the in-memory table. -/
def memStore (α : Type) : Store (MemState α) where
  get := fun st id =>
    match lookupRec st.recs id with
    | some r => (r, none)
    | none => (Record.zero, some GoErr.recordNotFound)
  save := fun st r => ({ st with recs := insertRec st.recs r }, none)

/-- An action of the memdb-backed system touches only the application tables
(the integration-test actions use the account repository, not the
idempotency store); lift it to the full transaction state. -/
def liftAction {α I S : Type} (a : α → String → I → α × S × Option GoErr) :
    Action (MemState α) I S :=
  fun st key input =>
    match a st.app key input with
    | (app2, s, e) => ({ st with app := app2 }, s, e)

/-- One Wrapper.Wrap invocation against the memdb-backed system: its own
wrapper configuration, key, input and action. -/
structure Invocation (α I S F : Type) where
  manager : Manager S F
  errorToFail : GoErr → Bool × F
  hasher : I → String × Option GoErr
  zeroS : S
  key : String
  input : I
  action : α → String → I → α × S × Option GoErr

/-- The wrapper an invocation runs with (memdb store). -/
def Invocation.wrapper {α I S F : Type} (inv : Invocation α I S F) :
    Wrapper (MemState α) I S F :=
  { store := memStore α, manager := inv.manager,
    errorToFail := inv.errorToFail, hasher := inv.hasher, zeroS := inv.zeroS }

/-- The state after one Wrap invocation. -/
def stepInv {α I S F : Type} (st : MemState α) (inv : Invocation α I S F) :
    MemState α :=
  (inv.wrapper.Wrap st inv.key inv.input (liftAction inv.action)).state

/-- The state after a sequence of Wrap invocations. -/
def runInvs {α I S F : Type} (st : MemState α) :
    List (Invocation α I S F) → MemState α
  | [] => st
  | inv :: rest => runInvs (stepInv st inv) rest

/-! Concrete instantiation used by witnesses and counterexamples: app state,
input, success output and failure output are all Nat; the serializer is a
singleton-list encoding; the only business error is `bizErr`. -/

/-- A serializer for Nat: marshal to a singleton byte list; both directions
total, and they round-trip. -/
def natSer : Serializer Nat :=
  { marshal := fun n => ([n], none), unmarshal := fun l => (l.headD 0, none) }

/-- The business error of the concrete instantiation (the analogue of
ErrInsufficientFunds in the integration test). -/
def bizErr : GoErr := GoErr.other "insufficient"

/-- Concrete manager: failure output 1 reconstructs to `bizErr`. -/
def mgr0 : Manager Nat Nat :=
  { successSer := natSer, failSer := natSer,
    failToError := fun f => if f = 1 then some bizErr else none }

/-- Concrete wrapper over the memdb store: `bizErr` is classified as a
business failure with failure output 1; inputs 0 and other numbers hash to
different fingerprints. -/
def w0 : Wrapper (MemState Nat) Nat Nat Nat :=
  { store := memStore Nat, manager := mgr0,
    errorToFail := fun e => if e = bizErr then (true, 1) else (false, 0),
    hasher := fun n => (if n = 0 then "a" else "b", none),
    zeroS := 0 }

/-- Initial concrete state: empty idempotency table, app state 100. -/
def st0 : MemState Nat := { recs := [], app := 100 }

/-- Concrete action that succeeds with output 42 and leaves the app state
alone. -/
def okAction : Nat → String → Nat → Nat × Nat × Option GoErr :=
  fun a _ _ => (a, 42, none)

/-- Concrete action that mutates the app state and fails with the business
error, returning a non-zero success output alongside the error. -/
def bizAction : Nat → String → Nat → Nat × Nat × Option GoErr :=
  fun a _ _ => (a + 5, 7, some bizErr)

/-- Concrete action that mutates the app state and fails with a
non-business (system) error. -/
def sysAction : Nat → String → Nat → Nat × Nat × Option GoErr :=
  fun a _ _ => (a + 5, 7, some (GoErr.other "db down"))

/-! ## Claim theorems -/

/-- C6: the memdb Unit of Work contract.  `Execute` returns the closure's
error unchanged, commits to the closure's state exactly when that error is
nil, and otherwise rolls back to the initial state.  The last conjunct
expresses that the closure is consulted only through its single application
at the initial transaction state (it is invoked once): the result depends on
`fn` only via `fn st`. -/
theorem c6_unit_of_work_contract {σ : Type} (st : σ)
    (fn : σ → σ × Option GoErr) :
    (UnitOfWork.Execute st fn).2 = (fn st).2
    ∧ ((fn st).2 = none → (UnitOfWork.Execute st fn).1 = (fn st).1)
    ∧ (∀ e, (fn st).2 = some e → (UnitOfWork.Execute st fn).1 = st)
    ∧ (∀ g : σ → σ × Option GoErr, g st = fn st →
        UnitOfWork.Execute st g = UnitOfWork.Execute st fn) := by
  rcases hf : fn st with ⟨s2, e⟩
  cases e with
  | none =>
    refine ⟨?_, ?_, ?_, ?_⟩ <;>
      simp [UnitOfWork.Execute, hf]
    intro g hg
    simp [UnitOfWork.Execute, hg, hf]
  | some e0 =>
    refine ⟨?_, ?_, ?_, ?_⟩ <;>
      simp [UnitOfWork.Execute, hf]
    intro g hg
    simp [UnitOfWork.Execute, hg, hf]

/-- C6 witness: the contract evaluated at a concrete committing closure. -/
theorem c6_unit_of_work_contract_witness :
    ((fun s : Nat => (s + 1, (none : Option GoErr))) 0).2 = none
    ∧ (UnitOfWork.Execute 0 (fun s : Nat => (s + 1, (none : Option GoErr)))).1
        = 1 := by
  have h := c6_unit_of_work_contract 0
    (fun s : Nat => (s + 1, (none : Option GoErr)))
  exact ⟨rfl, by simpa using h.2.1 rfl⟩

/-- C2: fingerprint integrity.  If a record exists for the key and the
input's hash differs from the stored InputHash, Wrap returns ErrHashMismatch
with the zero success output, the action is never invoked, nothing is saved,
and the state is unchanged (the transaction rolls back read-only). -/
theorem c2_hash_mismatch {σ I S F : Type} (w : Wrapper σ I S F) (st : σ)
    (key h : String) (input : I) (action : Action σ I S) (r0 : Record)
    (hh : w.hasher input = (h, none))
    (hg : w.store.get st key = (r0, none))
    (hm : r0.InputHash ≠ h) :
    w.Wrap st key input action =
      { state := st, successOutput := w.zeroS,
        err := some GoErr.hashMismatch, actionCalls := 0, saveCalls := 0 } := by
  simp [Wrapper.Wrap, Wrapper.WrapTx, Manager.AlreadyProcessed,
    UnitOfWork.Execute, hh, hg, hm]

/-- A committed success record for key k1 under hash "a" with output 42. -/
def rec1 : Record :=
  { ID := "k1", InputHash := "a", SuccessOutput := true, Output := [42] }

/-- A state holding the success record rec1 for key k1. -/
def st1 : MemState Nat := { recs := [("k1", rec1)], app := 100 }

/-- C2 witness: replaying key k1 (recorded under hash "a") with an input
hashing to "b" fails with the hash mismatch error and changes nothing. -/
theorem c2_hash_mismatch_witness :
    w0.Wrap st1 "k1" 3 (liftAction okAction) =
      { state := st1, successOutput := 0, err := some GoErr.hashMismatch,
        actionCalls := 0, saveCalls := 0 } :=
  c2_hash_mismatch w0 st1 "k1" "b" 3 (liftAction okAction) rec1
    (by decide) (by decide) (by decide)

/-- C3: a recorded business failure commits and surfaces the original error.
When the action fails with an error the classifier accepts (ok=true), the
failure output marshals, and the store save succeeds, the transaction
closure returns nil (so the Unit of Work commits and the saved state, which
holds the failure record, survives) and Wrap returns the original action
error. -/
theorem c3_business_failure_commits {σ I S F : Type} (w : Wrapper σ I S F)
    (st sta stb : σ) (key h : String) (input : I) (action : Action σ I S)
    (s1 : S) (ae : GoErr) (f : F) (bs : List Nat) (r0 : Record)
    (hh : w.hasher input = (h, none))
    (hg : w.store.get st key = (r0, some GoErr.recordNotFound))
    (ha : action st key input = (sta, s1, some ae))
    (hc : w.errorToFail ae = (true, f))
    (hmar : w.manager.failSer.marshal f = (bs, none))
    (hs : w.store.save sta
        { ID := key, InputHash := h, SuccessOutput := false, Output := bs }
        = (stb, none)) :
    (w.WrapTx st key h input action).fnErr = none
    ∧ w.Wrap st key input action =
      { state := stb, successOutput := s1, err := some ae,
        actionCalls := 1, saveCalls := 1 } := by
  constructor <;>
    simp [Wrapper.Wrap, Wrapper.WrapTx, Manager.AlreadyProcessed,
      Manager.SaveFailOutput, UnitOfWork.Execute, hh, hg, ha, hc, hmar, hs]

/-- The failure record the concrete business-failure action commits under
key k2. -/
def rec2 : Record :=
  { ID := "k2", InputHash := "a", SuccessOutput := false, Output := [1] }

/-- The state after the concrete business-failure action committed under
key k2: the failure record plus the action's app-state mutation. -/
def st2 : MemState Nat := { recs := [("k2", rec2)], app := 105 }

/-- C3 witness: the concrete business-failure action under key k2 commits
its failure record and Wrap returns the business error. -/
theorem c3_business_failure_commits_witness :
    (w0.WrapTx st0 "k2" "a" 0 (liftAction bizAction)).fnErr = none
    ∧ w0.Wrap st0 "k2" 0 (liftAction bizAction) =
      { state := st2, successOutput := 7, err := some bizErr,
        actionCalls := 1, saveCalls := 1 } :=
  c3_business_failure_commits w0 st0 { recs := [], app := 105 } st2
    "k2" "a" 0 (liftAction bizAction) 7 bizErr 1 [1] Record.zero
    (by decide) (by decide) (by decide) (by decide) (by decide) (by decide)

/-- C4: atomic record of success.  When the action succeeds, its output
marshals, but the store save fails, the transaction closure returns a
SuccessOutputStoreError wrapping the store error, the Unit of Work rolls
back, and the resulting state is the initial one — as if the action never
ran. -/
theorem c4_success_save_failure_rolls_back {σ I S F : Type}
    (w : Wrapper σ I S F) (st sta stb : σ) (key h : String) (input : I)
    (action : Action σ I S) (s1 : S) (se : GoErr) (bs : List Nat)
    (r0 : Record)
    (hh : w.hasher input = (h, none))
    (hg : w.store.get st key = (r0, some GoErr.recordNotFound))
    (ha : action st key input = (sta, s1, none))
    (hmar : w.manager.successSer.marshal s1 = (bs, none))
    (hs : w.store.save sta
        { ID := key, InputHash := h, SuccessOutput := true, Output := bs }
        = (stb, some se)) :
    (w.WrapTx st key h input action).fnErr
      = some (GoErr.successOutputStore se)
    ∧ w.Wrap st key input action =
      { state := st, successOutput := s1,
        err := some (GoErr.successOutputStore se),
        actionCalls := 1, saveCalls := 1 } := by
  constructor <;>
    simp [Wrapper.Wrap, Wrapper.WrapTx, Manager.AlreadyProcessed,
      Manager.SaveSuccessOutput, UnitOfWork.Execute, hh, hg, ha, hmar, hs]

/-- A store over MemState Nat whose Save always fails with a system error
(used to exercise the save-failure paths). -/
def failingSaveStore : Store (MemState Nat) :=
  { get := (memStore Nat).get,
    save := fun st _ => (st, some (GoErr.other "disk full")) }

/-- The concrete wrapper with the failing-save store. -/
def wFail : Wrapper (MemState Nat) Nat Nat Nat :=
  { w0 with store := failingSaveStore }

/-- C4 witness: with a failing save, a successful action's whole attempt is
rolled back and Wrap reports the SuccessOutputStoreError. -/
theorem c4_success_save_failure_rolls_back_witness :
    (wFail.WrapTx st0 "k1" "a" 0 (liftAction okAction)).fnErr
      = some (GoErr.successOutputStore (GoErr.other "disk full"))
    ∧ wFail.Wrap st0 "k1" 0 (liftAction okAction) =
      { state := st0, successOutput := 42,
        err := some (GoErr.successOutputStore (GoErr.other "disk full")),
        actionCalls := 1, saveCalls := 1 } :=
  c4_success_save_failure_rolls_back wFail st0 st0 st0 "k1" "a" 0
    (liftAction okAction) 42 (GoErr.other "disk full") [42] Record.zero
    (by decide) (by decide) (by decide) (by decide) (by decide)

/-- C5: non-business failures are never cached.  When the action fails with
an error the classifier rejects (ok=false), the transaction closure returns
the raw error unchanged, nothing is saved, the Unit of Work rolls back to
the initial state, and a subsequent Wrap from the resulting state with the
same key and input invokes the action again. -/
theorem c5_non_business_not_cached {σ I S F : Type} (w : Wrapper σ I S F)
    (st sta : σ) (key h : String) (input : I) (action : Action σ I S)
    (s1 : S) (ae : GoErr) (f : F) (r0 : Record)
    (hh : w.hasher input = (h, none))
    (hg : w.store.get st key = (r0, some GoErr.recordNotFound))
    (ha : action st key input = (sta, s1, some ae))
    (hc : w.errorToFail ae = (false, f)) :
    (w.WrapTx st key h input action).fnErr = some ae
    ∧ w.Wrap st key input action =
      { state := st, successOutput := s1, err := some ae,
        actionCalls := 1, saveCalls := 0 }
    ∧ (w.Wrap (w.Wrap st key input action).state key input action).actionCalls
        = 1 := by
  have htx : (w.WrapTx st key h input action).fnErr = some ae := by
    simp [Wrapper.WrapTx, Manager.AlreadyProcessed, hg, ha, hc]
  have hw : w.Wrap st key input action =
      { state := st, successOutput := s1, err := some ae,
        actionCalls := 1, saveCalls := 0 } := by
    simp [Wrapper.Wrap, Wrapper.WrapTx, Manager.AlreadyProcessed,
      UnitOfWork.Execute, hh, hg, ha, hc]
  refine ⟨htx, hw, ?_⟩
  rw [hw]
  simp [Wrapper.Wrap, Wrapper.WrapTx, Manager.AlreadyProcessed,
    UnitOfWork.Execute, hh, hg, ha, hc]

/-- C5 witness: the concrete system-failure action under key k3 changes
nothing, the raw error is surfaced, and a retry runs the action again. -/
theorem c5_non_business_not_cached_witness :
    (w0.WrapTx st0 "k3" "a" 0 (liftAction sysAction)).fnErr
      = some (GoErr.other "db down")
    ∧ w0.Wrap st0 "k3" 0 (liftAction sysAction) =
      { state := st0, successOutput := 7, err := some (GoErr.other "db down"),
        actionCalls := 1, saveCalls := 0 }
    ∧ (w0.Wrap (w0.Wrap st0 "k3" 0 (liftAction sysAction)).state "k3" 0
        (liftAction sysAction)).actionCalls = 1 :=
  c5_non_business_not_cached w0 st0 { recs := [], app := 105 } "k3" "a" 0
    (liftAction sysAction) 7 (GoErr.other "db down") 0 Record.zero
    (by decide) (by decide) (by decide) (by decide)

/-- C9 counterexample: the fresh business-failure path commits cleanly
(the closure returns nil after recording the failure), Wrap returns the
business error — but the success output returned is 7, the value the action
returned alongside its error, not the zero value 0 of S. -/
theorem c9_zero_output_counterexample :
    (w0.WrapTx st0 "k2" "a" 0 (liftAction bizAction)).fnErr = none
    ∧ (w0.Wrap st0 "k2" 0 (liftAction bizAction)).actionCalls = 1
    ∧ (w0.Wrap st0 "k2" 0 (liftAction bizAction)).err = some bizErr
    ∧ (w0.Wrap st0 "k2" 0 (liftAction bizAction)).successOutput = 7
    ∧ w0.zeroS = 0
    ∧ (w0.Wrap st0 "k2" 0 (liftAction bizAction)).successOutput ≠ w0.zeroS := by
  decide

/-- C9 amended: on the fresh-execution business-failure path that commits
cleanly, Wrap returns the recorded error together with the success-output
value the action itself returned alongside its error (which is the zero
value of S exactly when the action follows the Go convention of returning
the zero value with a non-nil error). -/
theorem c9_business_failure_output {σ I S F : Type} (w : Wrapper σ I S F)
    (st sta stb : σ) (key h : String) (input : I) (action : Action σ I S)
    (s1 : S) (ae : GoErr) (f : F) (bs : List Nat) (r0 : Record)
    (hh : w.hasher input = (h, none))
    (hg : w.store.get st key = (r0, some GoErr.recordNotFound))
    (ha : action st key input = (sta, s1, some ae))
    (hc : w.errorToFail ae = (true, f))
    (hmar : w.manager.failSer.marshal f = (bs, none))
    (hs : w.store.save sta
        { ID := key, InputHash := h, SuccessOutput := false, Output := bs }
        = (stb, none)) :
    (w.WrapTx st key h input action).fnErr = none
    ∧ (w.Wrap st key input action).err = some ae
    ∧ (w.Wrap st key input action).successOutput = s1 := by
  refine ⟨?_, ?_, ?_⟩ <;>
    simp [Wrapper.Wrap, Wrapper.WrapTx, Manager.AlreadyProcessed,
      Manager.SaveFailOutput, UnitOfWork.Execute, hh, hg, ha, hc, hmar, hs]

/-- A conventional business-failure action: zero success output alongside
the error, app state untouched. -/
def bizZeroAction : Nat → String → Nat → Nat × Nat × Option GoErr :=
  fun a _ _ => (a, 0, some bizErr)

/-- The failure record bizZeroAction commits under key k9. -/
def rec9 : Record :=
  { ID := "k9", InputHash := "a", SuccessOutput := false, Output := [1] }

/-- The state after bizZeroAction's failure record committed under key
k9. -/
def st9 : MemState Nat := { recs := [("k9", rec9)], app := 100 }

/-- C9 amended witness: an action returning the zero success output 0
alongside the business error makes Wrap return (0, bizErr). -/
theorem c9_business_failure_output_witness :
    (w0.WrapTx st0 "k9" "a" 0 (liftAction bizZeroAction)).fnErr = none
    ∧ (w0.Wrap st0 "k9" 0 (liftAction bizZeroAction)).err = some bizErr
    ∧ (w0.Wrap st0 "k9" 0 (liftAction bizZeroAction)).successOutput = 0 :=
  c9_business_failure_output w0 st0 st0 st9
    "k9" "a" 0 (liftAction bizZeroAction) 0 bizErr 1 [1] Record.zero
    (by decide) (by decide) (by decide) (by decide) (by decide) (by decide)

/-- C10: the Manager recognizes a miss only by the exact not-found sentinel.
AlreadyProcessed returns (false, zero, nil) precisely when store.Get failed
with the identical value ErrIdempotencyRecordNotFound; any other non-nil Get
error — a wrapped sentinel included — is returned unchanged with ok=false. -/
theorem c10_not_found_exact_sentinel {σ S F : Type} (m : Manager S F)
    (zeroS : S) (store : Store σ) (st : σ) (key inputHash : String) :
    (m.AlreadyProcessed zeroS store st key inputHash = (false, zeroS, none)
      ↔ (store.get st key).2 = some GoErr.recordNotFound)
    ∧ (∀ e, (store.get st key).2 = some e → e ≠ GoErr.recordNotFound →
        m.AlreadyProcessed zeroS store st key inputHash
          = (false, zeroS, some e)) := by
  rcases hg : store.get st key with ⟨rec, ge⟩
  cases ge with
  | some e =>
    by_cases he : e = GoErr.recordNotFound
    · subst he
      refine ⟨by simp [Manager.AlreadyProcessed, hg], ?_⟩
      intro e2 h1 h2
      exact absurd (Option.some.inj h1).symm h2
    · refine ⟨?_, ?_⟩
      · simp [Manager.AlreadyProcessed, hg, he]
      · intro e2 h1 h2
        obtain rfl : e = e2 := Option.some.inj h1
        simp [Manager.AlreadyProcessed, hg, he]
  | none =>
    refine ⟨?_, by intro e2 h1 h2 <;> simp at h1⟩
    by_cases hih : rec.InputHash = inputHash
    · by_cases hso : rec.SuccessOutput = true
      · rcases hu : m.successSer.unmarshal rec.Output with ⟨s, u⟩
        cases u <;> simp [Manager.AlreadyProcessed, hg, hih, hso, hu]
      · rcases hu : m.failSer.unmarshal rec.Output with ⟨f, u⟩
        cases u <;>
          simp [Manager.AlreadyProcessed, hg, hih, hso, hu]
    · simp [Manager.AlreadyProcessed, hg, hih]

/-- A store that (incorrectly, per the Manager's expectations) wraps the
not-found sentinel before returning it. -/
def wrappingStore : Store (MemState Nat) :=
  { get := fun st id =>
      match (memStore Nat).get st id with
      | (r, some e) => (r, some (GoErr.wrapped e))
      | (r, none) => (r, none),
    save := (memStore Nat).save }

/-- C10 witness: against the wrapping store, a miss is not recognized — the
wrapped sentinel comes back unchanged as an infrastructure failure. -/
theorem c10_not_found_exact_sentinel_witness :
    (mgr0.AlreadyProcessed 0 wrappingStore st0 "k" "a" = (false, 0, none)
      ↔ (wrappingStore.get st0 "k").2 = some GoErr.recordNotFound)
    ∧ mgr0.AlreadyProcessed 0 wrappingStore st0 "k" "a"
        = (false, 0, some (GoErr.wrapped GoErr.recordNotFound)) :=
  ⟨(c10_not_found_exact_sentinel mgr0 0 wrappingStore st0 "k" "a").1,
   (c10_not_found_exact_sentinel mgr0 0 wrappingStore st0 "k" "a").2
     (GoErr.wrapped GoErr.recordNotFound) (by decide) (by decide)⟩

/-- On a found record with matching fingerprint, AlreadyProcessed reports
ok=true (whatever the payload deserialization does). -/
theorem alreadyProcessed_hit_ok {σ S F : Type} (m : Manager S F) (zeroS : S)
    (store : Store σ) (st : σ) (key h : String) (rec : Record)
    (hg : store.get st key = (rec, none))
    (hmatch : rec.InputHash = h) :
    (m.AlreadyProcessed zeroS store st key h).1 = true := by
  by_cases hso : rec.SuccessOutput = true
  · rcases hu : m.successSer.unmarshal rec.Output with ⟨s, u⟩
    cases u <;> simp [Manager.AlreadyProcessed, hg, hmatch, hso, hu]
  · rcases hu : m.failSer.unmarshal rec.Output with ⟨f, u⟩
    cases u <;> simp [Manager.AlreadyProcessed, hg, hmatch, hso, hu]

/-- On a found record with matching fingerprint, the transaction closure
returns before the action: its state is the incoming one, the captured
success output and returned error are those of AlreadyProcessed, and no
action or save happens. -/
theorem wrapTx_hit {σ I S F : Type} (w : Wrapper σ I S F) (st : σ)
    (key h : String) (input : I) (action : Action σ I S) (rec : Record)
    (hg : w.store.get st key = (rec, none))
    (hmatch : rec.InputHash = h) :
    w.WrapTx st key h input action =
      { state := st,
        successOutput :=
          (w.manager.AlreadyProcessed w.zeroS w.store st key h).2.1,
        errVar := none,
        fnErr := (w.manager.AlreadyProcessed w.zeroS w.store st key h).2.2,
        actionCalls := 0, saveCalls := 0 } := by
  have hok :=
    alreadyProcessed_hit_ok w.manager w.zeroS w.store st key h rec hg hmatch
  rcases hap : w.manager.AlreadyProcessed w.zeroS w.store st key h
    with ⟨ok, s0, e0⟩
  rw [hap] at hok
  simp only at hok
  simp [Wrapper.WrapTx, hap, hok]

/-- C8 counterexample: at the concrete state holding the business-failure
record for key k2, a replayed matching call finds the record (ok=true) and
Wrap returns the reconstructed failure — but the transaction closure
returns that error, so the Unit of Work takes the rollback branch, not a
commit: the claim's "transaction ends with a (read-only) commit" is false
for failure records. -/
theorem c8_cache_hit_commit_counterexample :
    (w0.manager.AlreadyProcessed w0.zeroS w0.store st2 "k2" "a").1 = true
    ∧ (w0.WrapTx st2 "k2" "a" 0 (liftAction okAction)).fnErr = some bizErr
    ∧ (w0.WrapTx st2 "k2" "a" 0 (liftAction okAction)).fnErr ≠ none
    ∧ UnitOfWork.Execute st2 (fun s =>
        ((w0.WrapTx s "k2" "a" 0 (liftAction okAction)).state,
         (w0.WrapTx s "k2" "a" 0 (liftAction okAction)).fnErr))
        = (st2, some bizErr)
    ∧ (w0.Wrap st2 "k2" 0 (liftAction okAction)).err = some bizErr := by
  decide

/-- C8 amended: a cache hit with matching fingerprint is read-only — the
state is unchanged, the action is not invoked and nothing is saved; a
readable success record is returned with a nil closure error (read-only
commit), while a failure record's reconstructed error is returned through
the closure, so the transaction rolls back (with nothing to undo). -/
theorem c8_cache_hit_read_only {σ I S F : Type} (w : Wrapper σ I S F)
    (st : σ) (key h : String) (input : I) (action : Action σ I S)
    (rec : Record)
    (hh : w.hasher input = (h, none))
    (hg : w.store.get st key = (rec, none))
    (hmatch : rec.InputHash = h) :
    (w.Wrap st key input action).state = st
    ∧ (w.Wrap st key input action).actionCalls = 0
    ∧ (w.Wrap st key input action).saveCalls = 0
    ∧ (∀ s, rec.SuccessOutput = true →
        w.manager.successSer.unmarshal rec.Output = (s, none) →
        (w.WrapTx st key h input action).fnErr = none
        ∧ (w.Wrap st key input action).err = none
        ∧ (w.Wrap st key input action).successOutput = s)
    ∧ (∀ f e, rec.SuccessOutput = false →
        w.manager.failSer.unmarshal rec.Output = (f, none) →
        w.manager.failToError f = some e →
        (w.WrapTx st key h input action).fnErr = some e
        ∧ (w.Wrap st key input action).err = some e) := by
  have htx := wrapTx_hit w st key h input action rec hg hmatch
  refine ⟨?_, ?_, ?_, ?_, ?_⟩
  · rcases he : (w.manager.AlreadyProcessed w.zeroS w.store st key h).2.2
      with _ | e <;>
      simp [Wrapper.Wrap, hh, htx, UnitOfWork.Execute, he]
  · rcases he : (w.manager.AlreadyProcessed w.zeroS w.store st key h).2.2
      with _ | e <;>
      simp [Wrapper.Wrap, hh, htx, UnitOfWork.Execute, he]
  · rcases he : (w.manager.AlreadyProcessed w.zeroS w.store st key h).2.2
      with _ | e <;>
      simp [Wrapper.Wrap, hh, htx, UnitOfWork.Execute, he]
  · intro s hso hu
    have hap : w.manager.AlreadyProcessed w.zeroS w.store st key h
        = (true, s, none) := by
      simp [Manager.AlreadyProcessed, hg, hmatch, hso, hu]
    refine ⟨?_, ?_, ?_⟩ <;>
      simp [Wrapper.Wrap, hh, htx, hap, UnitOfWork.Execute]
  · intro f e hso hu hfe
    have hap : w.manager.AlreadyProcessed w.zeroS w.store st key h
        = (true, w.zeroS, some e) := by
      simp [Manager.AlreadyProcessed, hg, hmatch, hso, hu, hfe]
    refine ⟨?_, ?_⟩ <;>
      simp [Wrapper.Wrap, hh, htx, hap, UnitOfWork.Execute]

/-- C8 amended witness: replaying key k1 against its committed success
record returns the stored output 42 read-only with a committing closure. -/
theorem c8_cache_hit_read_only_witness :
    (w0.Wrap st1 "k1" 0 (liftAction okAction)).state = st1
    ∧ (w0.WrapTx st1 "k1" "a" 0 (liftAction okAction)).fnErr = none
    ∧ (w0.Wrap st1 "k1" 0 (liftAction okAction)).err = none
    ∧ (w0.Wrap st1 "k1" 0 (liftAction okAction)).successOutput = 42
    ∧ (w0.Wrap st1 "k1" 0 (liftAction okAction)).actionCalls = 0 := by
  have h := c8_cache_hit_read_only w0 st1 "k1" "a" 0 (liftAction okAction)
    rec1 (by decide) (by decide) (by decide)
  have h4 := h.2.2.2.1 42 (by decide) (by decide)
  exact ⟨h.1, h4.1, h4.2.1, h4.2.2, h.2.1⟩

/-- Inserting a record and looking its ID up yields that record. -/
theorem lookupRec_insertRec_self (l : List (String × Record)) (r : Record) :
    lookupRec (insertRec l r) r.ID = some r := by
  induction l with
  | nil => simp [insertRec, lookupRec]
  | cons p rest ih =>
    rcases p with ⟨k, v⟩
    by_cases hk : k = r.ID
    · simp [insertRec, hk, lookupRec]
    · simp [insertRec, hk, lookupRec, ih]

/-- Inserting a record does not disturb lookups at other keys. -/
theorem lookupRec_insertRec_ne (l : List (String × Record)) (r : Record)
    (k : String) (hne : k ≠ r.ID) :
    lookupRec (insertRec l r) k = lookupRec l k := by
  induction l with
  | nil => simp [insertRec, lookupRec, Ne.symm hne]
  | cons p rest ih =>
    rcases p with ⟨k2, v⟩
    by_cases hk2 : k2 = r.ID
    · simp [insertRec, hk2, lookupRec, Ne.symm hne]
    · simp [insertRec, hk2, lookupRec, ih]

/-- On a found record (matching fingerprint or not), the transaction closure
returns before the action, leaving the state untouched and performing no
save. -/
theorem wrapTx_found {σ I S F : Type} (w : Wrapper σ I S F) (st : σ)
    (key h : String) (input : I) (action : Action σ I S) (rec : Record)
    (hg : w.store.get st key = (rec, none)) :
    w.WrapTx st key h input action =
      { state := st,
        successOutput :=
          (w.manager.AlreadyProcessed w.zeroS w.store st key h).2.1,
        errVar := none,
        fnErr := (w.manager.AlreadyProcessed w.zeroS w.store st key h).2.2,
        actionCalls := 0, saveCalls := 0 } := by
  by_cases hmatch : rec.InputHash = h
  · exact wrapTx_hit w st key h input action rec hg hmatch
  · have hap : w.manager.AlreadyProcessed w.zeroS w.store st key h
        = (false, w.zeroS, some GoErr.hashMismatch) := by
      simp [Manager.AlreadyProcessed, hg, hmatch]
    simp [Wrapper.WrapTx, hap]

/-- Wrap either commits (the closure returned nil) to the closure's state,
or rolls back to the initial state. -/
theorem wrap_state_cases {σ I S F : Type} (w : Wrapper σ I S F) (st : σ)
    (key h : String) (input : I) (action : Action σ I S)
    (hh : w.hasher input = (h, none)) :
    ((w.WrapTx st key h input action).fnErr = none
      ∧ (w.Wrap st key input action).state
          = (w.WrapTx st key h input action).state)
    ∨ ((w.WrapTx st key h input action).fnErr ≠ none
      ∧ (w.Wrap st key input action).state = st) := by
  rcases hf : (w.WrapTx st key h input action).fnErr with _ | e
  · exact Or.inl ⟨rfl, by simp [Wrapper.Wrap, hh, UnitOfWork.Execute, hf]⟩
  · exact Or.inr ⟨by simp [hf],
      by simp [Wrapper.Wrap, hh, UnitOfWork.Execute, hf]⟩

/-- A single run of the transaction closure on the memdb store never
disturbs an existing record of another key: the closure only ever inserts
under its own key, and only when that key was absent. -/
theorem wrapTx_recs_preserved {α I S F : Type}
    (w : Wrapper (MemState α) I S F) (hstore : w.store = memStore α)
    (st : MemState α) (key h : String) (input : I)
    (a : α → String → I → α × S × Option GoErr) (k : String) (r : Record)
    (hk : lookupRec st.recs k = some r) :
    lookupRec (w.WrapTx st key h input (liftAction a)).state.recs k
      = some r := by
  rcases hkey : lookupRec st.recs key with _ | rec2
  · have hap : w.manager.AlreadyProcessed w.zeroS (memStore α) st key h
        = (false, w.zeroS, none) := by
      simp [Manager.AlreadyProcessed, memStore, hkey]
    have hkne : k ≠ key := by
      intro he
      rw [he, hkey] at hk
      cases hk
    rcases haction : a st.app key input with ⟨app2, s, aerr⟩
    cases aerr with
    | none =>
      rcases hmar : w.manager.successSer.marshal s with ⟨bs, merr⟩
      cases merr with
      | none =>
        have hins := lookupRec_insertRec_ne st.recs
          { ID := key, InputHash := h, SuccessOutput := true, Output := bs }
          k hkne
        simp only [Wrapper.WrapTx, hstore]
        rw [hap]
        simp [liftAction, haction, Manager.SaveSuccessOutput, hmar,
          memStore, hins, hk]
      | some e =>
        simp only [Wrapper.WrapTx, hstore]
        rw [hap]
        simp [liftAction, haction, Manager.SaveSuccessOutput, hmar, hk]
    | some ae =>
      rcases hclass : w.errorToFail ae with ⟨isBiz, f⟩
      cases isBiz with
      | false =>
        simp only [Wrapper.WrapTx, hstore]
        rw [hap]
        simp [liftAction, haction, hclass, hk]
      | true =>
        rcases hmar : w.manager.failSer.marshal f with ⟨bs, merr⟩
        cases merr with
        | none =>
          have hins := lookupRec_insertRec_ne st.recs
            { ID := key, InputHash := h, SuccessOutput := false,
              Output := bs } k hkne
          simp only [Wrapper.WrapTx, hstore]
          rw [hap]
          simp [liftAction, haction, hclass, Manager.SaveFailOutput, hmar,
            memStore, hins, hk]
        | some e =>
          simp only [Wrapper.WrapTx, hstore]
          rw [hap]
          simp [liftAction, haction, hclass, Manager.SaveFailOutput, hmar,
            hk]
  · have hfound := wrapTx_found w st key h input (liftAction a) rec2
      (by simp [hstore, memStore, hkey])
    simp [hfound, hk]

/-- One Wrap invocation preserves every existing record. -/
theorem stepInv_preserves {α I S F : Type} (st : MemState α)
    (inv : Invocation α I S F) (k : String) (r : Record)
    (hk : lookupRec st.recs k = some r) :
    lookupRec (stepInv st inv).recs k = some r := by
  rcases hhash : inv.hasher inv.input with ⟨h, herr⟩
  cases herr with
  | some e =>
    simp [stepInv, Wrapper.Wrap, Invocation.wrapper, hhash, hk]
  | none =>
    have hh : inv.wrapper.hasher inv.input = (h, none) := hhash
    rcases wrap_state_cases inv.wrapper st inv.key h inv.input
        (liftAction inv.action) hh with ⟨hf, hs⟩ | ⟨hf, hs⟩
    · have hpres := wrapTx_recs_preserved inv.wrapper rfl st inv.key h
        inv.input inv.action k r hk
      simp only [stepInv]
      rw [hs]
      exact hpres
    · simp only [stepInv]
      rw [hs]
      exact hk

/-- C7: record immutability.  In any state of the memdb-backed system, once
a record is present for a key, running any further sequence of Wrapper.Wrap
invocations (any keys, inputs, configurations and actions) leaves that
record in place unchanged: every subsequent lookup of the key returns the
same record.  States reachable from a no-record-for-the-key state are a
special case, since the quantification covers every starting state holding
the record. -/
theorem c7_record_immutable {α I S F : Type}
    (invs : List (Invocation α I S F)) (st : MemState α) (k : String)
    (r : Record) (hk : lookupRec st.recs k = some r) :
    lookupRec (runInvs st invs).recs k = some r := by
  induction invs generalizing st with
  | nil => simpa [runInvs] using hk
  | cons inv rest ih =>
    exact ih (stepInv st inv) (stepInv_preserves st inv k r hk)

/-- An invocation with the concrete configuration: replay key k1 with an
input hashing differently, triggering the mismatch path. -/
def invMismatch : Invocation Nat Nat Nat Nat :=
  { manager := mgr0,
    errorToFail := fun e => if e = bizErr then (true, 1) else (false, 0),
    hasher := fun n => (if n = 0 then "a" else "b", none),
    zeroS := 0, key := "k1", input := 3, action := okAction }

/-- An invocation with the concrete configuration: a fresh business failure
under key k2. -/
def invBiz : Invocation Nat Nat Nat Nat :=
  { manager := mgr0,
    errorToFail := fun e => if e = bizErr then (true, 1) else (false, 0),
    hasher := fun n => (if n = 0 then "a" else "b", none),
    zeroS := 0, key := "k2", input := 0, action := bizAction }

/-- An invocation with the concrete configuration: a matching replay of
key k1. -/
def invReplay : Invocation Nat Nat Nat Nat :=
  { manager := mgr0,
    errorToFail := fun e => if e = bizErr then (true, 1) else (false, 0),
    hasher := fun n => (if n = 0 then "a" else "b", none),
    zeroS := 0, key := "k1", input := 0, action := okAction }

/-- C7 witness: the success record for k1 survives a mismatching replay, a
fresh business failure under another key, and a matching replay. -/
theorem c7_record_immutable_witness :
    lookupRec (runInvs st1 [invMismatch, invBiz, invReplay]).recs "k1"
      = some rec1 :=
  c7_record_immutable [invMismatch, invBiz, invReplay] st1 "k1" rec1
    (by decide)


/-- The success record a fresh successful execution saves. -/
def successRec (key h : String) (bs : List Nat) : Record :=
  { ID := key, InputHash := h, SuccessOutput := true, Output := bs }

/-- The failure record a fresh recorded business failure saves. -/
def failureRec (key h : String) (bs : List Nat) : Record :=
  { ID := key, InputHash := h, SuccessOutput := false, Output := bs }

/-- A fresh successful execution: on a miss, the action runs, its output is
saved under the input hash, the closure returns nil and the commit keeps
both the action's app-state change and the new success record. -/
theorem wrap_fresh_success {α I S F : Type} (w : Wrapper (MemState α) I S F)
    (st : MemState α) (key h : String) (input : I)
    (a : α → String → I → α × S × Option GoErr) (app2 : α) (s : S)
    (bs : List Nat)
    (hstore : w.store = memStore α)
    (hh : w.hasher input = (h, none))
    (hmiss : lookupRec st.recs key = none)
    (ha : a st.app key input = (app2, s, none))
    (hmar : w.manager.successSer.marshal s = (bs, none)) :
    w.Wrap st key input (liftAction a) =
      ⟨⟨insertRec st.recs (successRec key h bs), app2⟩, s, none, 1, 1⟩ := by
  have hap : w.manager.AlreadyProcessed w.zeroS (memStore α) st key h
      = (false, w.zeroS, none) := by
    simp [Manager.AlreadyProcessed, memStore, hmiss]
  have htx : w.WrapTx st key h input (liftAction a) =
      ⟨⟨insertRec st.recs (successRec key h bs), app2⟩, s, none, none,
        1, 1⟩ := by
    simp only [Wrapper.WrapTx, hstore]
    rw [hap]
    simp [liftAction, ha, Manager.SaveSuccessOutput, hmar, memStore,
      successRec]
  simp [Wrapper.Wrap, hh, htx, UnitOfWork.Execute]

/-- A fresh recorded business failure: on a miss, the action fails with a
classified error, the failure output is saved, the closure returns nil and
the commit keeps the failure record, while Wrap returns the original action
error alongside the success-output value the action returned. -/
theorem wrap_fresh_failure {α I S F : Type} (w : Wrapper (MemState α) I S F)
    (st : MemState α) (key h : String) (input : I)
    (a : α → String → I → α × S × Option GoErr) (app2 : α) (s : S)
    (ae : GoErr) (f : F) (bs : List Nat)
    (hstore : w.store = memStore α)
    (hh : w.hasher input = (h, none))
    (hmiss : lookupRec st.recs key = none)
    (ha : a st.app key input = (app2, s, some ae))
    (hclass : w.errorToFail ae = (true, f))
    (hmar : w.manager.failSer.marshal f = (bs, none)) :
    w.Wrap st key input (liftAction a) =
      ⟨⟨insertRec st.recs (failureRec key h bs), app2⟩, s, some ae,
        1, 1⟩ := by
  have hap : w.manager.AlreadyProcessed w.zeroS (memStore α) st key h
      = (false, w.zeroS, none) := by
    simp [Manager.AlreadyProcessed, memStore, hmiss]
  have htx : w.WrapTx st key h input (liftAction a) =
      ⟨⟨insertRec st.recs (failureRec key h bs), app2⟩, s, some ae, none,
        1, 1⟩ := by
    simp only [Wrapper.WrapTx, hstore]
    rw [hap]
    simp [liftAction, ha, hclass, Manager.SaveFailOutput, hmar, memStore,
      failureRec]
  simp [Wrapper.Wrap, hh, htx, UnitOfWork.Execute]

/-- Replaying against a stored success record: the stored output is
deserialized and returned read-only with a nil error. -/
theorem wrap_replay_success {α I S F : Type} (w : Wrapper (MemState α) I S F)
    (st2 : MemState α) (key h : String) (inputB : I)
    (a : α → String → I → α × S × Option GoErr) (s : S) (bs : List Nat)
    (hstore : w.store = memStore α)
    (hhB : w.hasher inputB = (h, none))
    (hfound : lookupRec st2.recs key = some (successRec key h bs))
    (hunmar : w.manager.successSer.unmarshal bs = (s, none)) :
    w.Wrap st2 key inputB (liftAction a) = ⟨st2, s, none, 0, 0⟩ := by
  have hap2 : w.manager.AlreadyProcessed w.zeroS (memStore α) st2 key h
      = (true, s, none) := by
    simp [Manager.AlreadyProcessed, memStore, hfound, hunmar, successRec]
  have htx2 : w.WrapTx st2 key h inputB (liftAction a) =
      ⟨st2, s, none, none, 0, 0⟩ := by
    simp only [Wrapper.WrapTx, hstore]
    rw [hap2]
    simp
  simp [Wrapper.Wrap, hhB, htx2, UnitOfWork.Execute]

/-- Replaying against a stored failure record: the stored failure output is
deserialized, reconstructed into the original error and returned; the
closure returns that error, so the (read-only) transaction rolls back and
the state is unchanged. -/
theorem wrap_replay_failure {α I S F : Type} (w : Wrapper (MemState α) I S F)
    (st2 : MemState α) (key h : String) (inputB : I)
    (a : α → String → I → α × S × Option GoErr) (ae : GoErr) (f : F)
    (bs : List Nat)
    (hstore : w.store = memStore α)
    (hhB : w.hasher inputB = (h, none))
    (hfound : lookupRec st2.recs key = some (failureRec key h bs))
    (hunmar : w.manager.failSer.unmarshal bs = (f, none))
    (hrec : w.manager.failToError f = some ae) :
    w.Wrap st2 key inputB (liftAction a) =
      ⟨st2, w.zeroS, some ae, 0, 0⟩ := by
  have hap2 : w.manager.AlreadyProcessed w.zeroS (memStore α) st2 key h
      = (true, w.zeroS, some ae) := by
    simp [Manager.AlreadyProcessed, memStore, hfound, hunmar, hrec,
      failureRec]
  have htx2 : w.WrapTx st2 key h inputB (liftAction a) =
      ⟨st2, w.zeroS, none, some ae, 0, 0⟩ := by
    simp only [Wrapper.WrapTx, hstore]
    rw [hap2]
    simp
  simp [Wrapper.Wrap, hhB, htx2, UnitOfWork.Execute]

/-- C1: idempotence of the wrapped execution on the memdb-backed system.
If the first Wrap call for a fresh key completes — either the action
succeeded and its output was committed, or the action failed with a
recorded business error — then a second Wrap call with the same key and an
input with the same hash returns the same error (nil for success, the
reconstructed business error otherwise) and, when the first call succeeded,
the same success output; the state is unchanged by the replay, and the
action runs at most once across the two calls.  The serializer round-trip
and error-reconstruction hypotheses are the contracts the design demands of
those collaborators. -/
theorem c1_idempotence {α I S F : Type} (w : Wrapper (MemState α) I S F)
    (st : MemState α) (key h : String) (input inputB : I)
    (a : α → String → I → α × S × Option GoErr)
    (hstore : w.store = memStore α)
    (hh : w.hasher input = (h, none))
    (hhB : w.hasher inputB = (h, none))
    (hmiss : lookupRec st.recs key = none)
    (hcomplete :
      (∃ app2 s bs, a st.app key input = (app2, s, none)
        ∧ w.manager.successSer.marshal s = (bs, none)
        ∧ w.manager.successSer.unmarshal bs = (s, none))
      ∨ (∃ app2 s ae f bs, a st.app key input = (app2, s, some ae)
        ∧ w.errorToFail ae = (true, f)
        ∧ w.manager.failSer.marshal f = (bs, none)
        ∧ w.manager.failSer.unmarshal bs = (f, none)
        ∧ w.manager.failToError f = some ae)) :
    (w.Wrap (w.Wrap st key input (liftAction a)).state key inputB
        (liftAction a)).err
      = (w.Wrap st key input (liftAction a)).err
    ∧ ((w.Wrap st key input (liftAction a)).err = none →
        (w.Wrap (w.Wrap st key input (liftAction a)).state key inputB
            (liftAction a)).successOutput
          = (w.Wrap st key input (liftAction a)).successOutput)
    ∧ (w.Wrap (w.Wrap st key input (liftAction a)).state key inputB
          (liftAction a)).state
        = (w.Wrap st key input (liftAction a)).state
    ∧ (w.Wrap st key input (liftAction a)).actionCalls
        + (w.Wrap (w.Wrap st key input (liftAction a)).state key inputB
            (liftAction a)).actionCalls ≤ 1 := by
  rcases hcomplete with ⟨app2, s, bs, ha, hmar, hunmar⟩ |
    ⟨app2, s, ae, f, bs, ha, hclass, hmar, hunmar, hrec⟩
  · have hr1 := wrap_fresh_success w st key h input a app2 s bs
      hstore hh hmiss ha hmar
    have hfound : lookupRec (insertRec st.recs (successRec key h bs)) key
        = some (successRec key h bs) := by
      simpa [successRec] using
        lookupRec_insertRec_self st.recs (successRec key h bs)
    have hr2 := wrap_replay_success w
      ⟨insertRec st.recs (successRec key h bs), app2⟩
      key h inputB a s bs hstore hhB hfound hunmar
    simp [hr1, hr2]
  · have hr1 := wrap_fresh_failure w st key h input a app2 s ae f bs
      hstore hh hmiss ha hclass hmar
    have hfound : lookupRec (insertRec st.recs (failureRec key h bs)) key
        = some (failureRec key h bs) := by
      simpa [failureRec] using
        lookupRec_insertRec_self st.recs (failureRec key h bs)
    have hr2 := wrap_replay_failure w
      ⟨insertRec st.recs (failureRec key h bs), app2⟩
      key h inputB a ae f bs hstore hhB hfound hunmar hrec
    simp [hr1, hr2]

/-- C1 witness: the concrete successful transfer under key k1 replays with
the same output 42, nil error, unchanged state, one action run in total. -/
theorem c1_idempotence_witness :
    (w0.Wrap (w0.Wrap st0 "k1" 0 (liftAction okAction)).state "k1" 0
        (liftAction okAction)).err
      = (w0.Wrap st0 "k1" 0 (liftAction okAction)).err
    ∧ (w0.Wrap (w0.Wrap st0 "k1" 0 (liftAction okAction)).state "k1" 0
        (liftAction okAction)).successOutput
      = (w0.Wrap st0 "k1" 0 (liftAction okAction)).successOutput
    ∧ (w0.Wrap st0 "k1" 0 (liftAction okAction)).actionCalls
        + (w0.Wrap (w0.Wrap st0 "k1" 0 (liftAction okAction)).state "k1" 0
            (liftAction okAction)).actionCalls ≤ 1 := by
  have h := c1_idempotence w0 st0 "k1" "a" 0 0 okAction rfl
    (by decide) (by decide) (by decide)
    (Or.inl ⟨100, 42, [42], by decide, by decide, by decide⟩)
  exact ⟨h.1, h.2.1 (by decide), h.2.2.2⟩

end Idempo
